import Mathlib

/-!
Verification development for the smart-school attendance tracker.

The definitions below are a shallow embedding of the repository's core:
the attendance services (`src`: services, `getStudentById`,
`getAttendanceByDate`, `isStudentAlreadyPresentToday`,
`saveAttendanceRecord`), the scan handler `onScanSuccess` of the
attendance scanner component, the registration helper `normalizeGender`,
and the aggregation function `calculateReports` of the attendance
reports component.  JavaScript strings are modelled as Lean `String`;
JS string comparison (`<=`, `>=` by code units), `toLowerCase` and
`includes` are embedded as executable functions on the character lists
(the data handled here is ASCII, where code units and code points
coincide).  JS numbers holding integer counts are modelled as `Nat`
(`Int` where a subtraction may go negative), and the one fractional
value (an attendance percentage, rounded by `toFixed(2)`) as `ℚ`.
-/

/-- ASCII lowercasing of a single character, as done by
`String.prototype.toLowerCase` on the ASCII inputs handled here. -/
def charToLower (c : Char) : Char :=
  if 65 ≤ c.toNat ∧ c.toNat ≤ 90 then Char.ofNat (c.toNat + 32) else c

/-- Embedding of `s.toLowerCase()`. -/
def strToLower (s : String) : String := ⟨s.data.map charToLower⟩

/-- Lexicographic `<=` on character lists, comparing code units the way
JS compares strings. -/
def lexLe : List Char → List Char → Bool
  | [], _ => true
  | _ :: _, [] => false
  | a :: as, b :: bs =>
    if a.toNat < b.toNat then true
    else if b.toNat < a.toNat then false
    else lexLe as bs

/-- Lexicographic `<` on character lists. -/
def lexLt : List Char → List Char → Bool
  | [], [] => false
  | [], _ :: _ => true
  | _ :: _, [] => false
  | a :: as, b :: bs =>
    if a.toNat < b.toNat then true
    else if b.toNat < a.toNat then false
    else lexLt as bs

/-- Embedding of the JS string comparison `a <= b`. -/
def strLe (a b : String) : Bool := lexLe a.data b.data

/-- Embedding of the JS string comparison `a < b`. -/
def strLt (a b : String) : Bool := lexLt a.data b.data

/-- Auxiliary for substring search: does the first list start the second? -/
def prefixOfL : List Char → List Char → Bool
  | [], _ => true
  | _ :: _, [] => false
  | a :: as, b :: bs => a == b && prefixOfL as bs

/-- Auxiliary for substring search over all suffixes of the haystack. -/
def subL (needle : List Char) : List Char → Bool
  | [] => needle.isEmpty
  | c :: rest => prefixOfL needle (c :: rest) || subL needle rest

/-- Embedding of `hay.includes(needle)` on JS strings. -/
def strIncludes (hay needle : String) : Bool := subL needle.data hay.data

/-- Embedding of `parseFloat(x.toFixed(2))`: rounding to two decimal
places, half away from zero on the nonnegative values produced here. -/
def round2 (q : ℚ) : ℚ := (⌊q * 100 + 1/2⌋ : ℚ) / 100

/-- The `Student` record of `types.ts` (`class` and `section` are Lean
keywords, hence the underscore in the field names). -/
structure Student where
  id : String
  name : String
  father_name : String
  school_name : String
  class_ : String
  section_ : String
  roll_number : String
  gender : Option String
  icard_image_url : String
  qr_image_url : String
  created_at : String
  deriving DecidableEq, Repr

/-- The `AttendanceRecord` of `types.ts`.  The `status` union type
`'present' | 'absent'` is modelled as the runtime value, a string. -/
structure AttendanceRecord where
  id : String
  student_id : String
  date : String
  status : String
  time : String
  deriving DecidableEq, Repr

/-- One value of `ReportData.individualAttendance` in `types.ts`. -/
structure IndividualEntry where
  name : String
  gender : Option String
  presentDays : Nat
  totalDays : Nat
  percentage : ℚ
  history : List AttendanceRecord
  deriving DecidableEq, Repr

/-- The four gender counters mutated by the tally loop of
`calculateReports`. -/
structure GenderTally where
  girlsPresent : Nat
  girlsAbsent : Nat
  boysPresent : Nat
  boysAbsent : Nat
  deriving DecidableEq, Repr

/-- The `ReportData` of `types.ts`.  `totalAbsentInPeriod` is an `Int`
because the JS subtraction `totalStudents - totalPresentInPeriod` can go
negative.  The `individualAttendance` object is modelled as an
association list in key-insertion order. -/
structure ReportData where
  totalStudents : Nat
  totalPresentInPeriod : Nat
  totalAbsentInPeriod : Int
  girlsPresentInPeriod : Nat
  girlsAbsentInPeriod : Nat
  boysPresentInPeriod : Nat
  boysAbsentInPeriod : Nat
  individualAttendance : List (String × IndividualEntry)
  deriving DecidableEq, Repr

/-- `studentService.getStudentById`, with the stored student list passed
explicitly in place of the localStorage read. -/
def getStudentById (students : List Student) (studentId : String) : Option Student :=
  students.find? (fun s => s.id == studentId)

/-- `attendanceService.getAttendanceByDate`, with the stored record list
passed explicitly. -/
def getAttendanceByDate (records : List AttendanceRecord) (date : String) : List AttendanceRecord :=
  records.filter (fun record => record.date == date)

/-- `attendanceService.isStudentAlreadyPresentToday`. -/
def isStudentAlreadyPresentToday (records : List AttendanceRecord) (studentId date : String) : Bool :=
  (getAttendanceByDate records date).any
    (fun record => record.student_id == studentId && record.status == "present")

/-- `attendanceService.saveAttendanceRecord`: push onto the stored list. -/
def saveAttendanceRecord (records : List AttendanceRecord) (record : AttendanceRecord) : List AttendanceRecord :=
  records ++ [record]

/-- The date-range filter of `calculateReports` (AttendanceReports.tsx):
`record.date >= startDate && record.date <= endDate` with JS string
comparison. -/
def attendanceInPeriod (allAttendance : List AttendanceRecord) (startDate endDate : String) :
    List AttendanceRecord :=
  allAttendance.filter (fun record => strLe startDate record.date && strLe record.date endDate)

/-- The `Set` of ids of the status-`present` events inside the period,
modelled as the duplicate-free list of first occurrences; its length is
the set's `size` and `List.contains` is the set's `has`. -/
def presentStudentIdsInPeriod (allAttendance : List AttendanceRecord) (startDate endDate : String) :
    List String :=
  (((attendanceInPeriod allAttendance startDate endDate).filter
      (fun record => record.status == "present")).map
    (fun record => record.student_id)).dedup

/-- The last student of the list carrying the given id, if any: the
lookup behaviour of the JS `Map` filled by iterating `set` over the
roster (later writes win). -/
def findLastById : List Student → String → Option Student
  | [], _ => none
  | s :: rest, k =>
    match findLastById rest k with
    | some t => some t
    | none => if s.id == k then some s else none

/-- `studentGenderMap.get`: the lowercased `gender || ''` of the last
roster entry with the given id. -/
def studentGenderMap (students : List Student) (k : String) : Option String :=
  (findLastById students k).map (fun s => strToLower (s.gender.getD ""))

/-- One iteration of the gender tally `forEach` of `calculateReports`,
parameterised by the map lookup and the present-set membership test. -/
def genderTallyStep (genderOf : String → Option String) (isPresent : String → Bool)
    (acc : GenderTally) (student : Student) : GenderTally :=
  let gender := genderOf student.id
  let isPresentAtLeastOnce := isPresent student.id
  if gender == some "female" || gender == some "girl" || gender == some "g" then
    if isPresentAtLeastOnce then { acc with girlsPresent := acc.girlsPresent + 1 }
    else { acc with girlsAbsent := acc.girlsAbsent + 1 }
  else if gender == some "male" || gender == some "boy" || gender == some "b" then
    if isPresentAtLeastOnce then { acc with boysPresent := acc.boysPresent + 1 }
    else { acc with boysAbsent := acc.boysAbsent + 1 }
  else acc

/-- The whole gender tally loop, starting from four zeroed counters. -/
def genderTally (genderOf : String → Option String) (isPresent : String → Bool)
    (students : List Student) : GenderTally :=
  students.foldl (genderTallyStep genderOf isPresent) ⟨0, 0, 0, 0⟩

/-- Stable insertion of a record into a date-sorted list, placing it
before later-dated records and after equal-dated ones. -/
def insertByDate (r : AttendanceRecord) : List AttendanceRecord → List AttendanceRecord
  | [] => [r]
  | x :: xs => if strLe r.date x.date then r :: x :: xs else x :: insertByDate r xs

/-- The history sort of `calculateReports`: a stable sort by the date
field.  The JS comparator subtracts `Date` timestamps, which on the
`YYYY-MM-DD` strings of this ledger orders exactly like the
lexicographic comparison used here. -/
def sortByDate : List AttendanceRecord → List AttendanceRecord
  | [] => []
  | x :: xs => insertByDate x (sortByDate xs)

/-- The body of the per-student `forEach` of `calculateReports`,
computing one `individualAttendance` entry from the period-filtered
ledger. -/
def mkIndividualEntry (inPeriod : List AttendanceRecord) (student : Student) : IndividualEntry :=
  let studentRecordsInPeriod := inPeriod.filter (fun r => r.student_id == student.id)
  let presentDays :=
    ((studentRecordsInPeriod.filter (fun r => r.status == "present")).map
      (fun r => r.date)).dedup.length
  let totalAttendanceDaysRecorded := (studentRecordsInPeriod.map (fun r => r.date)).dedup.length
  let rawPercentage : ℚ :=
    if totalAttendanceDaysRecorded > 0 then
      ((presentDays : ℚ) / (totalAttendanceDaysRecorded : ℚ)) * 100
    else 0
  { name := student.name
    gender := student.gender
    presentDays := presentDays
    totalDays := totalAttendanceDaysRecorded
    percentage := round2 rawPercentage
    history := sortByDate studentRecordsInPeriod }

/-- Assignment `obj[k] = v` on a JS object modelled as an association
list: overwrite in place if the key exists, else append. -/
def upsertAssoc : List (String × IndividualEntry) → String → IndividualEntry →
    List (String × IndividualEntry)
  | [], k, v => [(k, v)]
  | (k', v') :: rest, k, v =>
    if k' == k then (k, v) :: rest else (k', v') :: upsertAssoc rest k v

/-- Property read `obj[k]` on the association-list object: the value at
the first (and, by construction of `upsertAssoc`, only) occurrence of
the key. -/
def lookupAssoc : List (String × IndividualEntry) → String → Option IndividualEntry
  | [], _ => none
  | p :: rest, q => if p.1 == q then some p.2 else lookupAssoc rest q

/-- The pure core of `calculateReports` (AttendanceReports.tsx): roster
and ledger snapshots and the date range in, a `ReportData` out. -/
def calculateReports (students : List Student) (allAttendance : List AttendanceRecord)
    (startDate endDate : String) : ReportData :=
  let inPeriod := attendanceInPeriod allAttendance startDate endDate
  let totalStudents := students.length
  let presentIds := presentStudentIdsInPeriod allAttendance startDate endDate
  let totalPresentInPeriod := presentIds.length
  let totalAbsentInPeriod : Int := (totalStudents : Int) - (totalPresentInPeriod : Int)
  let tally := genderTally (studentGenderMap students) (fun id => presentIds.contains id) students
  let individualAttendance :=
    students.foldl (fun acc s => upsertAssoc acc s.id (mkIndividualEntry inPeriod s)) []
  { totalStudents := totalStudents
    totalPresentInPeriod := totalPresentInPeriod
    totalAbsentInPeriod := totalAbsentInPeriod
    girlsPresentInPeriod := tally.girlsPresent
    girlsAbsentInPeriod := tally.girlsAbsent
    boysPresentInPeriod := tally.boysPresent
    boysAbsentInPeriod := tally.boysAbsent
    individualAttendance := individualAttendance }

/-- The `GENDER_OPTIONS` list of `constants.ts`. -/
def GENDER_OPTIONS : List String := ["Unknown", "Male", "Female", "Other"]

/-- The registration helper `normalizeGender` of the student
registration component: `null` and the empty string are the falsy
inputs of the JS guard `if (!gender)`. -/
def normalizeGender (gender : Option String) : String :=
  match gender with
  | none => GENDER_OPTIONS.getD 0 ""
  | some g =>
    if g == "" then GENDER_OPTIONS.getD 0 ""
    else
      let lowerCaseGender := strToLower g
      if strIncludes lowerCaseGender "male" || strIncludes lowerCaseGender "boy" then "Male"
      else if strIncludes lowerCaseGender "female" || strIncludes lowerCaseGender "girl" then
        "Female"
      else if strIncludes lowerCaseGender "other" then "Other"
      else GENDER_OPTIONS.getD 0 ""

/-- The outcome a call of `onScanSuccess` surfaces through its state
setters: the cooldown message, the not-found error, the
already-marked-present message, or the marked-present message. -/
inductive ScanOutcome where
  | stillInCooldown
  | notFound
  | alreadyPresent
  | markedPresent
  deriving DecidableEq, Repr

/-- The state `onScanSuccess` reads and writes: the persisted attendance
ledger and `scannedStudentsRef`, the per-identifier cooldown set.  A
cooldown member is the pair of the scanned text and the millisecond
time of its insertion; the scheduled `setTimeout` deletion is modelled
lazily by the 3000 ms bound inside `inCooldown`. -/
structure ScanState where
  ledger : List AttendanceRecord
  cooldown : List (String × Nat)
  deriving DecidableEq, Repr

/-- Membership of `scannedStudentsRef` at the given time: an entry is
live until its deletion fires 3000 ms after insertion. -/
def inCooldown (cooldown : List (String × Nat)) (text : String) (now : Nat) : Bool :=
  cooldown.any (fun p => p.1 == text && now < p.2 + 3000)

/-- The scan handler `onScanSuccess` of the attendance scanner.  The
ambient reads (roster snapshot, wall-clock date and time, the generated
uuid, the millisecond clock) are explicit arguments; the result is the
updated state and the surfaced outcome. -/
def onScanSuccess (students : List Student) (decodedText : String) (now : Nat)
    (today currentTime freshId : String) (st : ScanState) : ScanState × ScanOutcome :=
  if inCooldown st.cooldown decodedText now then
    (st, ScanOutcome.stillInCooldown)
  else
    let st1 : ScanState := { st with cooldown := (decodedText, now) :: st.cooldown }
    match getStudentById students decodedText with
    | none => (st1, ScanOutcome.notFound)
    | some _ =>
      if isStudentAlreadyPresentToday st1.ledger decodedText today then
        (st1, ScanOutcome.alreadyPresent)
      else
        let newRecord : AttendanceRecord :=
          { id := freshId
            student_id := decodedText
            date := today
            status := "present"
            time := currentTime }
        ({ st1 with ledger := saveAttendanceRecord st1.ledger newRecord },
         ScanOutcome.markedPresent)

/-- One decoded-identifier input together with the ambient values the
handler reads while processing it. -/
structure ScanInput where
  text : String
  now : Nat
  today : String
  time : String
  freshId : String
  deriving DecidableEq, Repr

/-- A whole sequence of `onScanSuccess` calls, threading the state. -/
def runScans (students : List Student) (inputs : List ScanInput) (st : ScanState) : ScanState :=
  inputs.foldl
    (fun s i => (onScanSuccess students i.text i.now i.today i.time i.freshId s).1) st

/-- Number of status-`present` events of one (student, date) pair in a
ledger: the quantity the dedup invariant bounds by one. -/
def presentCount (records : List AttendanceRecord) (studentId date : String) : Nat :=
  (records.filter
    (fun r => r.student_id == studentId && r.date == date && r.status == "present")).length

/-- Reflexivity of the lexicographic comparison. -/
theorem lexLe_refl : ∀ l : List Char, lexLe l l = true := by
  intro l
  induction l with
  | nil => rfl
  | cons a as ih => simp [lexLe, Nat.lt_irrefl, ih]

/-- Reflexivity of the JS string comparison `<=`. -/
theorem strLe_refl (s : String) : strLe s s = true := lexLe_refl s.data

/-- Strictly smaller lists are not greater-or-equal the other way. -/
theorem lexLt_le_false : ∀ a b : List Char, lexLt a b = true → lexLe b a = false := by
  intro a
  induction a with
  | nil =>
    intro b h
    cases b with
    | nil => simp [lexLt] at h
    | cons c cs => simp [lexLe]
  | cons x xs ih =>
    intro b h
    cases b with
    | nil => simp [lexLt] at h
    | cons y ys =>
      simp only [lexLt] at h
      simp only [lexLe]
      by_cases h1 : x.toNat < y.toNat
      · have h2 : ¬ y.toNat < x.toNat := by omega
        simp [h1, h2]
      · by_cases h2 : y.toNat < x.toNat
        · simp [h1, h2] at h
        · simp only [h1, h2, if_false, if_neg] at h ⊢
          exact ih ys h

/-- A strictly smaller string is not greater-or-equal the other way. -/
theorem strLt_le_false (a b : String) (h : strLt a b = true) : strLe b a = false :=
  lexLt_le_false a.data b.data h

/-- A sample roster member with gender `Female`, used by concrete
witnesses. -/
def stuFemale : Student :=
  { id := "s1", name := "Asha", father_name := "F", school_name := "Smart School",
    class_ := "1st", section_ := "A", roll_number := "1", gender := some "Female",
    icard_image_url := "", qr_image_url := "", created_at := "t0" }

/-- A sample roster member with gender `Male`. -/
def stuMale : Student :=
  { id := "s2", name := "Bir", father_name := "F", school_name := "Smart School",
    class_ := "1st", section_ := "A", roll_number := "2", gender := some "Male",
    icard_image_url := "", qr_image_url := "", created_at := "t0" }

/-- A sample roster member with no recorded gender. -/
def stuNoGender : Student :=
  { id := "s3", name := "Chand", father_name := "F", school_name := "Smart School",
    class_ := "1st", section_ := "A", roll_number := "3", gender := none,
    icard_image_url := "", qr_image_url := "", created_at := "t0" }

/-- A sample present event of `stuFemale` inside January 2024. -/
def recPresent1 : AttendanceRecord :=
  { id := "e1", student_id := "s1", date := "2024-01-10", status := "present",
    time := "09:00:00" }

/-- A sample present event dated exactly 2024-01-01. -/
def recOnStart : AttendanceRecord :=
  { id := "e2", student_id := "s1", date := "2024-01-01", status := "present",
    time := "09:00:00" }

/-- A sample orphan present event: its student id `ghost` matches no
roster member used in the witnesses. -/
def recOrphanPresent : AttendanceRecord :=
  { id := "e9", student_id := "ghost", date := "2024-01-10", status := "present",
    time := "09:00:00" }

/-- C2, amended: for a range with `startDate <= endDate`, an event of the
ledger dated exactly `startDate` or exactly `endDate` is in the filtered
set the report counts are computed from, and an event dated
lexicographically below `startDate` is excluded (the exclusion holds for
every range).  The original claim quantified over every range, but on a
range with `startDate > endDate` an event dated `startDate` fails the
`date <= endDate` half of the filter. -/
theorem claim_C2_range_inclusivity (allAttendance : List AttendanceRecord)
    (startDate endDate : String) (r : AttendanceRecord) (hmem : r ∈ allAttendance) :
    (strLe startDate endDate = true →
      (r.date = startDate ∨ r.date = endDate) →
        r ∈ attendanceInPeriod allAttendance startDate endDate)
    ∧ (strLt r.date startDate = true →
        r ∉ attendanceInPeriod allAttendance startDate endDate) := by
  constructor
  · intro hrange hd
    simp only [attendanceInPeriod, List.mem_filter]
    refine ⟨hmem, ?_⟩
    rcases hd with h | h
    · rw [h]
      simp [strLe_refl, hrange]
    · rw [h]
      simp [strLe_refl, hrange]
  · intro hlt hin
    simp only [attendanceInPeriod, List.mem_filter, Bool.and_eq_true] at hin
    have h1 : strLe startDate r.date = true := hin.2.1
    have h2 : strLe startDate r.date = false := strLt_le_false r.date startDate hlt
    rw [h1] at h2
    simp at h2

/-- C2, witness: on the January 2024 range, the event dated exactly the
start of the range is kept by the period filter. -/
theorem claim_C2_range_inclusivity_witness :
    recOnStart ∈ [recOnStart] ∧ strLe "2024-01-01" "2024-01-31" = true ∧
      recOnStart ∈ attendanceInPeriod [recOnStart] "2024-01-01" "2024-01-31" :=
  ⟨by decide, by decide,
    (claim_C2_range_inclusivity [recOnStart] "2024-01-01" "2024-01-31" recOnStart
      (by decide)).1 (by decide) (Or.inl rfl)⟩

/-- C2, counterexample to the claim as stated: with the reversed range
`startDate = 2024-01-02 > endDate = 2024-01-01`, the ledger's event
dated exactly `startDate` is not included in the filtered set. -/
theorem claim_C2_range_inclusivity_cex :
    ({ id := "e2", student_id := "s1", date := "2024-01-02", status := "present",
       time := "09:00:00" } : AttendanceRecord).date = "2024-01-02"
    ∧ ({ id := "e2", student_id := "s1", date := "2024-01-02", status := "present",
         time := "09:00:00" } : AttendanceRecord) ∉
        attendanceInPeriod
          [{ id := "e2", student_id := "s1", date := "2024-01-02", status := "present",
             time := "09:00:00" }] "2024-01-02" "2024-01-01" := by decide

/-- C8: the aggregation engine is deterministic — two invocations on the
same roster snapshot, ledger snapshot and date range produce equal
reports, equality of `ReportData` covering every field including the
order of each history list. -/
theorem claim_C8_determinism (students : List Student) (allAttendance : List AttendanceRecord)
    (startDate endDate : String) (r1 r2 : ReportData)
    (h1 : r1 = calculateReports students allAttendance startDate endDate)
    (h2 : r2 = calculateReports students allAttendance startDate endDate) : r1 = r2 := by
  rw [h1, h2]

/-- C8, witness: two concrete invocations on the same snapshots agree. -/
theorem claim_C8_determinism_witness :
    calculateReports [stuFemale] [recPresent1] "2024-01-01" "2024-01-31"
      = calculateReports [stuFemale] [recPresent1] "2024-01-01" "2024-01-31" :=
  claim_C8_determinism [stuFemale] [recPresent1] "2024-01-01" "2024-01-31" _ _ rfl rfl

/-- C9: because `normalizeGender` tests `includes('male')` before
`includes('female')`, every gender string whose lowercase form contains
the substring `male` is normalized to `Male`. -/
theorem claim_C9_female_normalizes_to_male (g : String)
    (h : strIncludes (strToLower g) "male" = true) : normalizeGender (some g) = "Male" := by
  simp only [normalizeGender]
  by_cases hg : g = ""
  · subst hg
    exact absurd h (by decide)
  · have hbeq : (g == "") = false := by simp [hg]
    simp [hbeq, h]

/-- C9, witness: the lowercase form of `Female` contains `male`, and the
registration helper indeed normalizes an OCR-extracted gender of
`Female` to `Male`. -/
theorem claim_C9_female_normalizes_to_male_witness :
    strIncludes (strToLower "Female") "male" = true ∧
      normalizeGender (some "Female") = "Male" :=
  ⟨by decide, claim_C9_female_normalizes_to_male "Female" (by decide)⟩

/-- C10: `totalPresentInPeriod` is the number of distinct student ids of
status-`present` events inside the period, computed with no intersection
against the roster; `totalAbsentInPeriod` is the roster size minus that
number, and on a concrete ledger holding one orphan present event with
an empty roster it is negative. -/
theorem claim_C10_present_ignores_roster :
    (∀ (students : List Student) (allAttendance : List AttendanceRecord)
        (startDate endDate : String),
        (calculateReports students allAttendance startDate endDate).totalPresentInPeriod
            = (presentStudentIdsInPeriod allAttendance startDate endDate).length
          ∧ (calculateReports students allAttendance startDate endDate).totalAbsentInPeriod
            = (students.length : Int)
                - ((presentStudentIdsInPeriod allAttendance startDate endDate).length : Int))
    ∧ (calculateReports [] [recOrphanPresent] "2024-01-01" "2024-01-31").totalAbsentInPeriod
        < 0 :=
  ⟨fun _ _ _ _ => ⟨rfl, rfl⟩, by decide⟩

/-- C4, amended: on an empty roster the aggregation is total and returns
`totalStudents = 0`, all four gender counts `0` and an empty per-student
section; but `totalPresentInPeriod` still counts the distinct present
ids of the period (it is not intersected with the roster, so it need not
be `0`), and `totalAbsentInPeriod` is its negation. -/
theorem claim_C4_empty_roster (allAttendance : List AttendanceRecord)
    (startDate endDate : String) :
    (calculateReports [] allAttendance startDate endDate).totalStudents = 0
    ∧ (calculateReports [] allAttendance startDate endDate).girlsPresentInPeriod = 0
    ∧ (calculateReports [] allAttendance startDate endDate).girlsAbsentInPeriod = 0
    ∧ (calculateReports [] allAttendance startDate endDate).boysPresentInPeriod = 0
    ∧ (calculateReports [] allAttendance startDate endDate).boysAbsentInPeriod = 0
    ∧ (calculateReports [] allAttendance startDate endDate).individualAttendance = []
    ∧ (calculateReports [] allAttendance startDate endDate).totalPresentInPeriod
        = (presentStudentIdsInPeriod allAttendance startDate endDate).length
    ∧ (calculateReports [] allAttendance startDate endDate).totalAbsentInPeriod
        = -((presentStudentIdsInPeriod allAttendance startDate endDate).length : Int) := by
  refine ⟨rfl, rfl, rfl, rfl, rfl, rfl, rfl, ?_⟩
  simp [calculateReports]

/-- C4, counterexample to the claim as stated: with an empty roster but
a ledger holding one orphan present event inside the period,
`totalPresentInPeriod` is `1`, not `0`, and `totalAbsentInPeriod` is
`-1`. -/
theorem claim_C4_empty_roster_cex :
    (calculateReports [] [recOrphanPresent] "2024-01-01" "2024-01-31").totalPresentInPeriod = 1
    ∧ ¬ (calculateReports [] [recOrphanPresent] "2024-01-01"
          "2024-01-31").totalPresentInPeriod = 0
    ∧ (calculateReports [] [recOrphanPresent] "2024-01-01" "2024-01-31").totalAbsentInPeriod
        = -1 := by decide

/-- Rounding zero to two decimals yields zero. -/
theorem round2_zero : round2 0 = 0 := by norm_num [round2]

/-- Reading back an upserted key: the object read `obj[q]` after the
assignment `obj[k] = v` sees `v` exactly at `q = k`. -/
theorem lookupAssoc_upsert (k q : String) (v : IndividualEntry) :
    ∀ l : List (String × IndividualEntry),
      lookupAssoc (upsertAssoc l k v) q = if q = k then some v else lookupAssoc l q := by
  intro l
  induction l with
  | nil =>
    by_cases h : q = k
    · subst h
      simp [upsertAssoc, lookupAssoc]
    · simp [upsertAssoc, lookupAssoc, h, show ¬ k = q from fun hh => h hh.symm]
  | cons p rest ih =>
    obtain ⟨k', v'⟩ := p
    by_cases hk : k' = k
    · subst hk
      by_cases hq : q = k'
      · subst hq
        simp [upsertAssoc, lookupAssoc]
      · simp [upsertAssoc, lookupAssoc, hq, show ¬ k' = q from fun hh => hq hh.symm]
    · by_cases hq : q = k'
      · subst hq
        simp [upsertAssoc, lookupAssoc, hk]
      · simp [upsertAssoc, lookupAssoc, hk, hq, show ¬ k' = q from fun hh => hq hh.symm, ih]

/-- Looking a key up in the object built by folding the per-student
assignments over the roster returns the entry of the last roster member
carrying that key, and falls back to the initial object otherwise. -/
theorem lookupAssoc_build (f : Student → IndividualEntry) :
    ∀ (l : List Student) (acc : List (String × IndividualEntry)) (k : String),
      lookupAssoc (l.foldl (fun a s => upsertAssoc a s.id (f s)) acc) k
        = (match findLastById l k with
            | some t => some (f t)
            | none => lookupAssoc acc k) := by
  intro l
  induction l with
  | nil => intro acc k; rfl
  | cons s rest ih =>
    intro acc k
    simp only [List.foldl_cons, findLastById]
    rw [ih]
    cases hfl : findLastById rest k with
    | some t => rfl
    | none =>
      simp only []
      rw [lookupAssoc_upsert]
      by_cases h : s.id = k
      · simp [h]
      · simp [h, show ¬ k = s.id from fun hh => h hh.symm]

/-- The student found by `findLastById` carries the looked-up id. -/
theorem findLastById_id : ∀ (l : List Student) (k : String) (t : Student),
    findLastById l k = some t → t.id = k := by
  intro l
  induction l with
  | nil => intro k t h; simp [findLastById] at h
  | cons s rest ih =>
    intro k t h
    simp only [findLastById] at h
    cases hfl : findLastById rest k with
    | some u =>
      rw [hfl] at h
      simp only [Option.some.injEq] at h
      exact h ▸ ih k u hfl
    | none =>
      rw [hfl] at h
      by_cases hs : s.id = k
      · simp [hs] at h
        exact h ▸ hs
      · simp [hs] at h

/-- The student found by `findLastById` belongs to the list. -/
theorem findLastById_mem : ∀ (l : List Student) (k : String) (t : Student),
    findLastById l k = some t → t ∈ l := by
  intro l
  induction l with
  | nil => intro k t h; simp [findLastById] at h
  | cons s rest ih =>
    intro k t h
    simp only [findLastById] at h
    cases hfl : findLastById rest k with
    | some u =>
      rw [hfl] at h
      simp only [Option.some.injEq] at h
      exact h ▸ List.mem_cons_of_mem s (ih k u hfl)
    | none =>
      rw [hfl] at h
      by_cases hs : s.id = k
      · simp [hs] at h
        simp [h]
      · simp [hs] at h

/-- Every member's id is found by `findLastById`. -/
theorem findLastById_isSome_of_mem : ∀ (l : List Student) (s : Student),
    s ∈ l → (findLastById l s.id).isSome = true := by
  intro l
  induction l with
  | nil => intro s h; simp at h
  | cons a rest ih =>
    intro s h
    simp only [findLastById]
    rcases List.mem_cons.mp h with h | h
    · subst h
      cases hfl : findLastById rest s.id with
      | some t => simp
      | none => simp
    · have hr := ih s h
      cases hfl : findLastById rest s.id with
      | some t => simp
      | none => rw [hfl] at hr; simp at hr

/-- On a roster whose ids are pairwise distinct, `findLastById` at a
member's id returns that member itself. -/
theorem findLastById_nodup : ∀ (l : List Student),
    (l.map (fun s => s.id)).Nodup → ∀ s : Student, s ∈ l → findLastById l s.id = some s := by
  intro l
  induction l with
  | nil => intro _ s hs; simp at hs
  | cons a rest ih =>
    intro hnd s hs
    simp only [List.map_cons, List.nodup_cons] at hnd
    obtain ⟨hna, hnr⟩ := hnd
    simp only [findLastById]
    rcases List.mem_cons.mp hs with h | h
    · subst h
      cases hfl : findLastById rest s.id with
      | some t =>
        have hid := findLastById_id rest s.id t hfl
        have htm := findLastById_mem rest s.id t hfl
        exact absurd (List.mem_map.mpr ⟨t, htm, hid⟩) hna
      | none => simp
    · rw [ih hnr s h]

/-- C3: for every roster member, the report entry found at the member's
id has `presentDays` the number of distinct dates of that student's
status-`present` events inside the period, `totalDays` the number of
distinct dates of any of that student's events inside the period, and
`percentage` the ratio rounded to two decimals when `totalDays` is
positive and exactly `0` otherwise. -/
theorem claim_C3_individual_stats (students : List Student)
    (allAttendance : List AttendanceRecord) (startDate endDate : String) (s : Student)
    (hs : s ∈ students) :
    ∃ e : IndividualEntry,
      lookupAssoc (calculateReports students allAttendance startDate endDate).individualAttendance
          s.id = some e
      ∧ e.presentDays = ((((attendanceInPeriod allAttendance startDate endDate).filter
            (fun r => r.student_id == s.id)).filter (fun r => r.status == "present")).map
          (fun r => r.date)).dedup.length
      ∧ e.totalDays = (((attendanceInPeriod allAttendance startDate endDate).filter
            (fun r => r.student_id == s.id)).map (fun r => r.date)).dedup.length
      ∧ e.percentage = (if 0 < e.totalDays
          then round2 (((e.presentDays : ℚ) / (e.totalDays : ℚ)) * 100) else 0) := by
  have hsome := findLastById_isSome_of_mem students s hs
  obtain ⟨t, hfl⟩ := Option.isSome_iff_exists.mp hsome
  have hid : t.id = s.id := findLastById_id students s.id t hfl
  refine ⟨mkIndividualEntry (attendanceInPeriod allAttendance startDate endDate) t,
    ?_, ?_, ?_, ?_⟩
  · have hb := lookupAssoc_build
      (mkIndividualEntry (attendanceInPeriod allAttendance startDate endDate)) students [] s.id
    have hproj : (calculateReports students allAttendance startDate endDate).individualAttendance
        = students.foldl (fun acc u => upsertAssoc acc u.id
            (mkIndividualEntry (attendanceInPeriod allAttendance startDate endDate) u)) [] := rfl
    rw [hproj, hb, hfl]
  · simp only [mkIndividualEntry, hid]
  · simp only [mkIndividualEntry, hid]
  · simp only [mkIndividualEntry]
    by_cases h : 0 < (((attendanceInPeriod allAttendance startDate endDate).filter
        (fun r => r.student_id == t.id)).map (fun r => r.date)).dedup.length
    · simp [h]
    · simp [h, round2_zero]

/-- C3, witness: the entry of `stuFemale` on the concrete January 2024
data satisfies the three per-student equations. -/
theorem claim_C3_individual_stats_witness :
    stuFemale ∈ [stuFemale] ∧
    ∃ e : IndividualEntry,
      lookupAssoc (calculateReports [stuFemale] [recPresent1] "2024-01-01"
          "2024-01-31").individualAttendance stuFemale.id = some e
      ∧ e.presentDays = ((((attendanceInPeriod [recPresent1] "2024-01-01" "2024-01-31").filter
            (fun r => r.student_id == stuFemale.id)).filter
              (fun r => r.status == "present")).map (fun r => r.date)).dedup.length
      ∧ e.totalDays = (((attendanceInPeriod [recPresent1] "2024-01-01" "2024-01-31").filter
            (fun r => r.student_id == stuFemale.id)).map (fun r => r.date)).dedup.length
      ∧ e.percentage = (if 0 < e.totalDays
          then round2 (((e.presentDays : ℚ) / (e.totalDays : ℚ)) * 100) else 0) :=
  ⟨by decide, claim_C3_individual_stats [stuFemale] [recPresent1] "2024-01-01" "2024-01-31"
      stuFemale (by decide)⟩

/-- Comparing two present options with `==` compares their contents. -/
theorem optionSome_beq (x y : String) : (some x == some y) = (x == y) := rfl

/-- Bridging `List.contains` and list membership for strings. -/
theorem contains_iff_mem (l : List String) (a : String) : l.contains a = true ↔ a ∈ l :=
  List.elem_iff

/-- A roster member whose lowercased gender equals one of the girl
tokens `female`, `girl`, `g` of the tally. -/
def isGirlGender (s : Student) : Bool :=
  let g := strToLower (s.gender.getD "")
  g == "female" || g == "girl" || g == "g"

/-- A roster member whose lowercased gender equals one of the boy tokens
`male`, `boy`, `b` of the tally. -/
def isBoyGender (s : Student) : Bool :=
  let g := strToLower (s.gender.getD "")
  g == "male" || g == "boy" || g == "b"

/-- The girl tokens and the boy tokens of the tally are disjoint. -/
theorem girl_boy_disjoint (g : String) :
    (g == "female" || g == "girl" || g == "g") = true →
      (g == "male" || g == "boy" || g == "b") = false := by
  intro h
  simp only [Bool.or_eq_true, beq_iff_eq] at h
  rcases h with (h | h) | h <;> subst h <;> decide

/-- Running the gender tally loop when the map lookup returns each
member's own lowercased gender: every member found among the girl tokens
increments the girls counter matching their present bit, every member
found among the boy tokens the corresponding boys counter, every other
member neither. -/
theorem genderTally_run (genderOf : String → Option String) (isPresent : String → Bool) :
    ∀ (l : List Student) (acc : GenderTally),
      (∀ s ∈ l, genderOf s.id = some (strToLower (s.gender.getD ""))) →
      l.foldl (genderTallyStep genderOf isPresent) acc =
        { girlsPresent := acc.girlsPresent + l.countP (fun s => isGirlGender s && isPresent s.id)
          girlsAbsent := acc.girlsAbsent + l.countP (fun s => isGirlGender s && !(isPresent s.id))
          boysPresent := acc.boysPresent + l.countP (fun s => isBoyGender s && isPresent s.id)
          boysAbsent := acc.boysAbsent + l.countP (fun s => isBoyGender s && !(isPresent s.id)) } := by
  intro l
  induction l with
  | nil => intro acc _; simp
  | cons a rest ih =>
    intro acc h
    have ha := h a (List.mem_cons_self a rest)
    have hr : ∀ s ∈ rest, genderOf s.id = some (strToLower (s.gender.getD "")) :=
      fun s hs => h s (List.mem_cons_of_mem a hs)
    simp only [List.foldl_cons]
    rw [ih _ hr]
    simp only [List.countP_cons, genderTallyStep, ha, optionSome_beq]
    cases hG : isGirlGender a with
    | true =>
      have hG' : (strToLower (a.gender.getD "") == "female"
          || strToLower (a.gender.getD "") == "girl"
          || strToLower (a.gender.getD "") == "g") = true := by
        simpa [isGirlGender] using hG
      have hB : isBoyGender a = false := by
        simpa [isBoyGender] using girl_boy_disjoint _ hG'
      cases hP : isPresent a.id <;>
        simp [hG', hG, hB, hP, GenderTally.mk.injEq] <;> omega
    | false =>
      have hG' : (strToLower (a.gender.getD "") == "female"
          || strToLower (a.gender.getD "") == "girl"
          || strToLower (a.gender.getD "") == "g") = false := by
        simpa [isGirlGender] using hG
      cases hB : isBoyGender a with
      | true =>
        have hB' : (strToLower (a.gender.getD "") == "male"
            || strToLower (a.gender.getD "") == "boy"
            || strToLower (a.gender.getD "") == "b") = true := by
          simpa [isBoyGender] using hB
        cases hP : isPresent a.id <;>
          simp [hG', hG, hB', hB, hP, GenderTally.mk.injEq] <;> omega
      | false =>
        have hB' : (strToLower (a.gender.getD "") == "male"
            || strToLower (a.gender.getD "") == "boy"
            || strToLower (a.gender.getD "") == "b") = false := by
          simpa [isBoyGender] using hB
        cases hP : isPresent a.id <;>
          simp [hG', hG, hB', hB, hP, GenderTally.mk.injEq]

/-- Membership in the present-ids set holds exactly when some
status-`present` event of that id lies inside the period. -/
theorem presentIds_contains_iff (allAttendance : List AttendanceRecord)
    (startDate endDate : String) (k : String) :
    (presentStudentIdsInPeriod allAttendance startDate endDate).contains k = true
      ↔ ∃ r ∈ attendanceInPeriod allAttendance startDate endDate,
          r.status = "present" ∧ r.student_id = k := by
  rw [contains_iff_mem]
  simp only [presentStudentIdsInPeriod, List.mem_dedup, List.mem_map, List.mem_filter,
    beq_iff_eq]
  constructor
  · rintro ⟨r, ⟨hr, hst⟩, hid⟩
    exact ⟨r, hr, hst, hid⟩
  · rintro ⟨r, hr, hst, hid⟩
    exact ⟨r, ⟨hr, hst⟩, hid⟩

/-- C6: on a roster with pairwise distinct ids (the identity store's
documented invariant), the tally counts a member among the girls exactly
when the lowercased gender equals a token of girl tokens and among the
boys exactly when it equals a boy token; members matching neither are in
no gender counter yet contribute to `totalStudents` and to the
present/absent balance; a gender-matched member counts as present
exactly when the present-ids set has their id, which holds exactly when
they have a status-`present` event inside the period. -/
theorem claim_C6_gender_tally (students : List Student) (allAttendance : List AttendanceRecord)
    (startDate endDate : String) (hnd : (students.map (fun s => s.id)).Nodup) :
    (calculateReports students allAttendance startDate endDate).girlsPresentInPeriod
        = students.countP (fun s => isGirlGender s
            && (presentStudentIdsInPeriod allAttendance startDate endDate).contains s.id)
    ∧ (calculateReports students allAttendance startDate endDate).girlsAbsentInPeriod
        = students.countP (fun s => isGirlGender s
            && !((presentStudentIdsInPeriod allAttendance startDate endDate).contains s.id))
    ∧ (calculateReports students allAttendance startDate endDate).boysPresentInPeriod
        = students.countP (fun s => isBoyGender s
            && (presentStudentIdsInPeriod allAttendance startDate endDate).contains s.id)
    ∧ (calculateReports students allAttendance startDate endDate).boysAbsentInPeriod
        = students.countP (fun s => isBoyGender s
            && !((presentStudentIdsInPeriod allAttendance startDate endDate).contains s.id))
    ∧ (calculateReports students allAttendance startDate endDate).totalStudents = students.length
    ∧ (calculateReports students allAttendance startDate endDate).totalAbsentInPeriod
        = (students.length : Int)
            - ((calculateReports students allAttendance startDate
                endDate).totalPresentInPeriod : Int)
    ∧ (∀ k : String,
        (presentStudentIdsInPeriod allAttendance startDate endDate).contains k = true
          ↔ ∃ r ∈ attendanceInPeriod allAttendance startDate endDate,
              r.status = "present" ∧ r.student_id = k) := by
  have hmap : ∀ s ∈ students,
      studentGenderMap students s.id = some (strToLower (s.gender.getD "")) := by
    intro s hs
    rw [studentGenderMap, findLastById_nodup students hnd s hs]
    rfl
  have hrun := genderTally_run (studentGenderMap students)
      (fun id => (presentStudentIdsInPeriod allAttendance startDate endDate).contains id)
      students ⟨0, 0, 0, 0⟩ hmap
  have h1 : (calculateReports students allAttendance startDate endDate).girlsPresentInPeriod
      = (students.foldl (genderTallyStep (studentGenderMap students)
          (fun id => (presentStudentIdsInPeriod allAttendance startDate endDate).contains id))
          ⟨0, 0, 0, 0⟩).girlsPresent := rfl
  have h2 : (calculateReports students allAttendance startDate endDate).girlsAbsentInPeriod
      = (students.foldl (genderTallyStep (studentGenderMap students)
          (fun id => (presentStudentIdsInPeriod allAttendance startDate endDate).contains id))
          ⟨0, 0, 0, 0⟩).girlsAbsent := rfl
  have h3 : (calculateReports students allAttendance startDate endDate).boysPresentInPeriod
      = (students.foldl (genderTallyStep (studentGenderMap students)
          (fun id => (presentStudentIdsInPeriod allAttendance startDate endDate).contains id))
          ⟨0, 0, 0, 0⟩).boysPresent := rfl
  have h4 : (calculateReports students allAttendance startDate endDate).boysAbsentInPeriod
      = (students.foldl (genderTallyStep (studentGenderMap students)
          (fun id => (presentStudentIdsInPeriod allAttendance startDate endDate).contains id))
          ⟨0, 0, 0, 0⟩).boysAbsent := rfl
  refine ⟨?_, ?_, ?_, ?_, rfl, rfl,
    fun k => presentIds_contains_iff allAttendance startDate endDate k⟩
  · rw [h1, hrun]; simp
  · rw [h2, hrun]; simp
  · rw [h3, hrun]; simp
  · rw [h4, hrun]; simp

/-- C6, witness: a roster of a girl, a boy and a member without gender,
with one present event of the girl inside January 2024, satisfies every
equation of the tally claim. -/
theorem claim_C6_gender_tally_witness :
    ([stuFemale, stuMale, stuNoGender].map (fun s => s.id)).Nodup
    ∧ ((calculateReports [stuFemale, stuMale, stuNoGender] [recPresent1] "2024-01-01"
          "2024-01-31").girlsPresentInPeriod
        = [stuFemale, stuMale, stuNoGender].countP (fun s => isGirlGender s
            && (presentStudentIdsInPeriod [recPresent1] "2024-01-01" "2024-01-31").contains s.id)
      ∧ (calculateReports [stuFemale, stuMale, stuNoGender] [recPresent1] "2024-01-01"
          "2024-01-31").girlsAbsentInPeriod
        = [stuFemale, stuMale, stuNoGender].countP (fun s => isGirlGender s
            && !((presentStudentIdsInPeriod [recPresent1] "2024-01-01"
                  "2024-01-31").contains s.id))
      ∧ (calculateReports [stuFemale, stuMale, stuNoGender] [recPresent1] "2024-01-01"
          "2024-01-31").boysPresentInPeriod
        = [stuFemale, stuMale, stuNoGender].countP (fun s => isBoyGender s
            && (presentStudentIdsInPeriod [recPresent1] "2024-01-01" "2024-01-31").contains s.id)
      ∧ (calculateReports [stuFemale, stuMale, stuNoGender] [recPresent1] "2024-01-01"
          "2024-01-31").boysAbsentInPeriod
        = [stuFemale, stuMale, stuNoGender].countP (fun s => isBoyGender s
            && !((presentStudentIdsInPeriod [recPresent1] "2024-01-01"
                  "2024-01-31").contains s.id))
      ∧ (calculateReports [stuFemale, stuMale, stuNoGender] [recPresent1] "2024-01-01"
          "2024-01-31").totalStudents = [stuFemale, stuMale, stuNoGender].length
      ∧ (calculateReports [stuFemale, stuMale, stuNoGender] [recPresent1] "2024-01-01"
          "2024-01-31").totalAbsentInPeriod
        = ([stuFemale, stuMale, stuNoGender].length : Int)
            - ((calculateReports [stuFemale, stuMale, stuNoGender] [recPresent1] "2024-01-01"
                "2024-01-31").totalPresentInPeriod : Int)
      ∧ (∀ k : String,
          (presentStudentIdsInPeriod [recPresent1] "2024-01-01" "2024-01-31").contains k = true
            ↔ ∃ r ∈ attendanceInPeriod [recPresent1] "2024-01-01" "2024-01-31",
                r.status = "present" ∧ r.student_id = k)) :=
  ⟨by decide,
    claim_C6_gender_tally [stuFemale, stuMale, stuNoGender] [recPresent1] "2024-01-01"
      "2024-01-31" (by decide)⟩

/-- The duplicate-for-today check fails exactly when the ledger holds no
status-`present` event of that (student, date) pair. -/
theorem isAlready_false_iff (records : List AttendanceRecord) (studentId date : String) :
    isStudentAlreadyPresentToday records studentId date = false
      ↔ presentCount records studentId date = 0 := by
  rw [presentCount, List.length_eq_zero]
  constructor
  · intro h
    rw [List.filter_eq_nil_iff]
    intro r hr hcond
    simp only [Bool.and_eq_true, beq_iff_eq] at hcond
    have htrue : isStudentAlreadyPresentToday records studentId date = true := by
      simp only [isStudentAlreadyPresentToday, getAttendanceByDate, List.any_eq_true,
        List.mem_filter, Bool.and_eq_true, beq_iff_eq]
      exact ⟨r, ⟨hr, hcond.1.2⟩, hcond.1.1, hcond.2⟩
    rw [h] at htrue
    simp at htrue
  · intro h
    by_contra hne
    have htrue : isStudentAlreadyPresentToday records studentId date = true := by
      cases hx : isStudentAlreadyPresentToday records studentId date
      · exact absurd hx hne
      · rfl
    simp only [isStudentAlreadyPresentToday, getAttendanceByDate, List.any_eq_true,
      List.mem_filter, Bool.and_eq_true, beq_iff_eq] at htrue
    obtain ⟨r, ⟨hr, hd⟩, hsid, hst⟩ := htrue
    have hmem : r ∈ List.filter
        (fun r => r.student_id == studentId && r.date == date && r.status == "present")
        records := by
      simp [List.mem_filter, hr, hd, hsid, hst]
    rw [h] at hmem
    simp at hmem

/-- Appending one record to the ledger raises the present count of a
pair by one exactly when the new record matches it. -/
theorem presentCount_append (records : List AttendanceRecord) (r : AttendanceRecord)
    (studentId date : String) :
    presentCount (records ++ [r]) studentId date
      = presentCount records studentId date
        + (if r.student_id == studentId && r.date == date && r.status == "present"
           then 1 else 0) := by
  simp only [presentCount, List.filter_append, List.length_append]
  cases h : (r.student_id == studentId && r.date == date && r.status == "present") <;>
    simp [h]

/-- One scan preserves the at-most-one-present-event bound for every
(student, date) pair: the only branch that writes is guarded by the
duplicate-for-today check. -/
theorem onScanSuccess_presentCount_le (students : List Student) (text : String) (now : Nat)
    (today time fid : String) (st : ScanState)
    (hinv : ∀ sid d, presentCount st.ledger sid d ≤ 1) :
    ∀ sid d,
      presentCount (onScanSuccess students text now today time fid st).1.ledger sid d ≤ 1 := by
  intro sid d
  simp only [onScanSuccess]
  by_cases hc : inCooldown st.cooldown text now = true
  · simp only [hc, if_true]
    exact hinv sid d
  · have hc' : inCooldown st.cooldown text now = false := by
      cases hx : inCooldown st.cooldown text now
      · rfl
      · exact absurd hx hc
    simp only [hc', Bool.false_eq_true, if_false]
    cases hstu : getStudentById students text with
    | none => exact hinv sid d
    | some stu =>
      simp only []
      by_cases hal : isStudentAlreadyPresentToday st.ledger text today = true
      · simp only [hal, if_true]
        exact hinv sid d
      · have hal' : isStudentAlreadyPresentToday st.ledger text today = false := by
          cases hx : isStudentAlreadyPresentToday st.ledger text today
          · rfl
          · exact absurd hx hal
        simp only [hal', Bool.false_eq_true, if_false, saveAttendanceRecord]
        rw [presentCount_append]
        have h0 : presentCount st.ledger text today = 0 := (isAlready_false_iff _ _ _).mp hal'
        by_cases hsid : text = sid
        · by_cases hd : today = d
          · subst hsid; subst hd
            simp [h0]
          · have : (today == d) = false := by simp [hd]
            simp [this]
            exact hinv sid d
        · have : (text == sid) = false := by simp [hsid]
          simp [this]
          exact hinv sid d

/-- Any sequence of scans preserves the at-most-one-present-event bound. -/
theorem runScans_presentCount_le (students : List Student) :
    ∀ (inputs : List ScanInput) (st : ScanState),
      (∀ sid d, presentCount st.ledger sid d ≤ 1) →
      ∀ sid d, presentCount (runScans students inputs st).ledger sid d ≤ 1 := by
  intro inputs
  induction inputs with
  | nil => intro st h; exact h
  | cons i rest ih =>
    intro st h
    have hstep := onScanSuccess_presentCount_le students i.text i.now i.today i.time i.freshId st h
    have hrest := ih ((onScanSuccess students i.text i.now i.today i.time i.freshId st).1) hstep
    simpa [runScans] using hrest

/-- C1, amended: starting from a ledger satisfying the at-most-one
invariant, any sequence of scans keeps at most one status-`present`
event per (student id, date); once a present event for
(`decodedText`, today) is in the ledger, any further scan of that id
performs no ledger write, and takes the duplicate branch (surfacing the
already-marked-present outcome) whenever it is outside the cooldown
window and the id resolves in the roster.  A further scan inside the
3-second cooldown window is suppressed with the scanned-just-now message
instead of the duplicate message, which is the only correction to the
original claim. -/
theorem claim_C1_dedup_idempotent (students : List Student) (inputs : List ScanInput)
    (st : ScanState) (hinv : ∀ sid d, presentCount st.ledger sid d ≤ 1) :
    (∀ sid d, presentCount (runScans students inputs st).ledger sid d ≤ 1)
    ∧ (∀ (decodedText : String) (now : Nat) (today currentTime freshId : String)
        (st2 : ScanState),
        isStudentAlreadyPresentToday st2.ledger decodedText today = true →
        (onScanSuccess students decodedText now today currentTime freshId st2).1.ledger
            = st2.ledger
          ∧ (inCooldown st2.cooldown decodedText now = false →
              (getStudentById students decodedText).isSome = true →
              (onScanSuccess students decodedText now today currentTime freshId st2).2
                = ScanOutcome.alreadyPresent)) := by
  refine ⟨runScans_presentCount_le students inputs st hinv, ?_⟩
  intro decodedText now today currentTime freshId st2 hal
  by_cases hc : inCooldown st2.cooldown decodedText now = true
  · have hres : onScanSuccess students decodedText now today currentTime freshId st2
        = (st2, ScanOutcome.stillInCooldown) := by
      simp [onScanSuccess, hc]
    rw [hres]
    exact ⟨rfl, fun hcf _ => by simp [hc] at hcf⟩
  · have hc' : inCooldown st2.cooldown decodedText now = false := by
      cases hx : inCooldown st2.cooldown decodedText now
      · rfl
      · exact absurd hx hc
    cases hstu : getStudentById students decodedText with
    | none =>
      have hres : onScanSuccess students decodedText now today currentTime freshId st2
          = ({ st2 with cooldown := (decodedText, now) :: st2.cooldown },
             ScanOutcome.notFound) := by
        simp [onScanSuccess, hc', hstu]
      rw [hres]
      exact ⟨rfl, fun _ hsome => by simp at hsome⟩
    | some stu =>
      have hres : onScanSuccess students decodedText now today currentTime freshId st2
          = ({ st2 with cooldown := (decodedText, now) :: st2.cooldown },
             ScanOutcome.alreadyPresent) := by
        simp [onScanSuccess, hc', hstu, hal]
      rw [hres]
      exact ⟨rfl, fun _ _ => rfl⟩

/-- C1, witness: the empty ledger satisfies the invariant, and it is
preserved across a run of two scans of `s1` on the same date. -/
theorem claim_C1_dedup_idempotent_witness :
    (∀ sid d, presentCount (⟨[], []⟩ : ScanState).ledger sid d ≤ 1)
    ∧ (∀ sid d, presentCount (runScans [stuFemale]
        [⟨"s1", 0, "2024-01-10", "09:00:00", "e1"⟩,
         ⟨"s1", 5000, "2024-01-10", "09:00:05", "e2"⟩] ⟨[], []⟩).ledger sid d ≤ 1) :=
  ⟨fun _ _ => Nat.zero_le 1,
   (claim_C1_dedup_idempotent [stuFemale]
      [⟨"s1", 0, "2024-01-10", "09:00:00", "e1"⟩,
       ⟨"s1", 5000, "2024-01-10", "09:00:05", "e2"⟩] ⟨[], []⟩
      (fun _ _ => Nat.zero_le 1)).1⟩

/-- C1, counterexample to the claim as stated: after a first scan marks
`s1` present, a second scan of `s1` one second later — while a present
event for (`s1`, today) exists — takes the cooldown branch, not the
duplicate branch. -/
theorem claim_C1_dedup_idempotent_cex :
    isStudentAlreadyPresentToday
        ((onScanSuccess [stuFemale] "s1" 0 "2024-01-10" "09:00:00" "e1"
          ⟨[], []⟩).1).ledger "s1" "2024-01-10" = true
    ∧ (onScanSuccess [stuFemale] "s1" 1000 "2024-01-10" "09:00:01" "e2"
        (onScanSuccess [stuFemale] "s1" 0 "2024-01-10" "09:00:00" "e1" ⟨[], []⟩).1).2
        = ScanOutcome.stillInCooldown
    ∧ ScanOutcome.stillInCooldown ≠ ScanOutcome.alreadyPresent := by decide

/-- One scan never removes a cooldown entry. -/
theorem onScanSuccess_cooldown_mono (students : List Student) (text : String) (now : Nat)
    (today time fid : String) (st : ScanState) (p : String × Nat) (hp : p ∈ st.cooldown) :
    p ∈ (onScanSuccess students text now today time fid st).1.cooldown := by
  simp only [onScanSuccess]
  by_cases hc : inCooldown st.cooldown text now = true
  · simp only [hc, if_true]
    exact hp
  · have hc' : inCooldown st.cooldown text now = false := by
      cases hx : inCooldown st.cooldown text now
      · rfl
      · exact absurd hx hc
    simp only [hc', Bool.false_eq_true, if_false]
    cases hstu : getStudentById students text with
    | none => exact List.mem_cons_of_mem _ hp
    | some stu =>
      by_cases hal : isStudentAlreadyPresentToday st.ledger text today = true
      · simp only [hal, if_true]
        exact List.mem_cons_of_mem _ hp
      · have hal' : isStudentAlreadyPresentToday st.ledger text today = false := by
          cases hx : isStudentAlreadyPresentToday st.ledger text today
          · rfl
          · exact absurd hx hal
        simp only [hal', Bool.false_eq_true, if_false]
        exact List.mem_cons_of_mem _ hp

/-- No sequence of scans removes a cooldown entry. -/
theorem runScans_cooldown_mono (students : List Student) :
    ∀ (inputs : List ScanInput) (st : ScanState) (p : String × Nat),
      p ∈ st.cooldown → p ∈ (runScans students inputs st).cooldown := by
  intro inputs
  induction inputs with
  | nil => intro st p hp; exact hp
  | cons i rest ih =>
    intro st p hp
    have hstep := onScanSuccess_cooldown_mono students i.text i.now i.today i.time i.freshId st p hp
    have hrest := ih ((onScanSuccess students i.text i.now i.today i.time i.freshId st).1) p hstep
    simpa [runScans] using hrest

/-- Every processed scan — not-found, duplicate or marked-present alike
— inserts the scanned text, stamped with the current time, into the
cooldown window. -/
theorem onScanSuccess_adds_cooldown (students : List Student) (text : String) (now : Nat)
    (today time fid : String) (st : ScanState)
    (hc : inCooldown st.cooldown text now = false) :
    (text, now) ∈ (onScanSuccess students text now today time fid st).1.cooldown := by
  simp only [onScanSuccess, hc, Bool.false_eq_true, if_false]
  cases hstu : getStudentById students text with
  | none => exact List.mem_cons_self _ _
  | some stu =>
    by_cases hal : isStudentAlreadyPresentToday st.ledger text today = true
    · simp only [hal, if_true]
      exact List.mem_cons_self _ _
    · have hal' : isStudentAlreadyPresentToday st.ledger text today = false := by
        cases hx : isStudentAlreadyPresentToday st.ledger text today
        · rfl
        · exact absurd hx hal
      simp only [hal', Bool.false_eq_true, if_false]
      exact List.mem_cons_self _ _

/-- A live cooldown entry makes the membership test fire. -/
theorem inCooldown_of_mem (cd : List (String × Nat)) (text : String) (t1 now : Nat)
    (hmem : (text, t1) ∈ cd) (hlt : now < t1 + 3000) : inCooldown cd text now = true := by
  simp only [inCooldown, List.any_eq_true]
  exact ⟨(text, t1), hmem, by simp [hlt]⟩

/-- A suppressed scan changes nothing and reports the cooldown outcome. -/
theorem onScanSuccess_suppressed (students : List Student) (text : String) (now : Nat)
    (today time fid : String) (st : ScanState)
    (hc : inCooldown st.cooldown text now = true) :
    onScanSuccess students text now today time fid st = (st, ScanOutcome.stillInCooldown) := by
  simp [onScanSuccess, hc]

/-- C7: a processed scan of `X` at time `t1` inserts `(X, t1)` into the
cooldown window, and any second scan of `X` at a time `t2 < t1 + 3000`
— regardless of the scans of other identifiers in between — is ignored:
it returns the state unchanged (in particular no ledger write, hence at
most one ledger mutation between the two calls) with the
still-in-cooldown outcome. -/
theorem claim_C7_cooldown_suppression (students : List Student) (X : String) (t1 t2 : Nat)
    (today1 time1 fid1 today2 time2 fid2 : String) (st : ScanState) (mids : List ScanInput)
    (hproc : inCooldown st.cooldown X t1 = false) (hwin : t2 < t1 + 3000) :
    (X, t1) ∈ (onScanSuccess students X t1 today1 time1 fid1 st).1.cooldown
    ∧ onScanSuccess students X t2 today2 time2 fid2
        (runScans students mids (onScanSuccess students X t1 today1 time1 fid1 st).1)
      = (runScans students mids (onScanSuccess students X t1 today1 time1 fid1 st).1,
         ScanOutcome.stillInCooldown) := by
  have h1 := onScanSuccess_adds_cooldown students X t1 today1 time1 fid1 st hproc
  have h2 := runScans_cooldown_mono students mids _ (X, t1) h1
  exact ⟨h1, onScanSuccess_suppressed students X t2 today2 time2 fid2 _
    (inCooldown_of_mem _ X t1 t2 h2 hwin)⟩

/-- C7, witness: a first scan of `s1` at time 0 followed by a second
scan one second later is suppressed with no state change. -/
theorem claim_C7_cooldown_suppression_witness :
    inCooldown (⟨[], []⟩ : ScanState).cooldown "s1" 0 = false
    ∧ (1000 : Nat) < 0 + 3000
    ∧ ((("s1" : String), (0 : Nat))
          ∈ (onScanSuccess [stuFemale] "s1" 0 "2024-01-10" "09:00:00" "e1"
              ⟨[], []⟩).1.cooldown
        ∧ onScanSuccess [stuFemale] "s1" 1000 "2024-01-10" "09:00:01" "e2"
            (runScans [stuFemale] []
              (onScanSuccess [stuFemale] "s1" 0 "2024-01-10" "09:00:00" "e1" ⟨[], []⟩).1)
          = (runScans [stuFemale] []
              (onScanSuccess [stuFemale] "s1" 0 "2024-01-10" "09:00:00" "e1" ⟨[], []⟩).1,
             ScanOutcome.stillInCooldown)) :=
  ⟨by decide, by decide,
    claim_C7_cooldown_suppression [stuFemale] "s1" 0 1000 "2024-01-10" "09:00:00" "e1"
      "2024-01-10" "09:00:01" "e2" ⟨[], []⟩ [] (by decide) (by decide)⟩

/-- `findLastById` succeeds exactly on the ids present in the list. -/
theorem findLastById_isSome_iff : ∀ (l : List Student) (k : String),
    (findLastById l k).isSome = true ↔ k ∈ l.map (fun s => s.id) := by
  intro l
  induction l with
  | nil => intro k; simp [findLastById]
  | cons a rest ih =>
    intro k
    simp only [findLastById, List.map_cons, List.mem_cons]
    cases hfl : findLastById rest k with
    | some t =>
      simp only [Option.isSome_some, true_iff]
      right
      exact (ih k).mp (by rw [hfl]; rfl)
    | none =>
      by_cases ha : a.id = k
      · simp [ha]
      · have hb : (a.id == k) = false := by simp [ha]
        simp only [hb, Bool.false_eq_true, if_false, Option.isSome_none]
        constructor
        · intro h; simp at h
        · intro h
          rcases h with h | h
          · exact absurd h.symm ha
          · have hrest := (ih k).mpr h
            rw [hfl] at hrest
            simp at hrest

/-- The per-student section of a report has an entry exactly at the
roster's ids. -/
theorem calculate_lookup_isSome_iff (students : List Student)
    (allAttendance : List AttendanceRecord) (startDate endDate : String) (k : String) :
    (lookupAssoc (calculateReports students allAttendance startDate
        endDate).individualAttendance k).isSome = true
      ↔ k ∈ students.map (fun s => s.id) := by
  have hproj : (calculateReports students allAttendance startDate endDate).individualAttendance
      = students.foldl (fun acc u => upsertAssoc acc u.id
          (mkIndividualEntry (attendanceInPeriod allAttendance startDate endDate) u)) [] := rfl
  rw [hproj, lookupAssoc_build, ← findLastById_isSome_iff]
  cases hfl : findLastById students k <;> simp [lookupAssoc]

/-- Folding the per-student assignments with pointwise equal entry
functions builds the same object. -/
theorem build_congr (f g : Student → IndividualEntry) :
    ∀ (l : List Student) (acc : List (String × IndividualEntry)),
      (∀ s ∈ l, f s = g s) →
      l.foldl (fun a s => upsertAssoc a s.id (f s)) acc
        = l.foldl (fun a s => upsertAssoc a s.id (g s)) acc := by
  intro l
  induction l with
  | nil => intro acc _; rfl
  | cons a rest ih =>
    intro acc h
    simp only [List.foldl_cons]
    rw [h a (List.mem_cons_self a rest)]
    exact ih _ (fun s hs => h s (List.mem_cons_of_mem a hs))

/-- The per-student entry only reads the period ledger through the
records of that student's id. -/
theorem mkEntry_filter_eq (inP inP2 : List AttendanceRecord) (s : Student)
    (h : inP2.filter (fun r => r.student_id == s.id)
        = inP.filter (fun r => r.student_id == s.id)) :
    mkIndividualEntry inP2 s = mkIndividualEntry inP s := by
  simp only [mkIndividualEntry, h]

/-- For a roster member, dropping the orphan events of the ledger before
the period filter does not change that student's period records. -/
theorem kept_filter_student (students : List Student) (allAttendance : List AttendanceRecord)
    (startDate endDate : String) (s : Student) (hs : s ∈ students) :
    (attendanceInPeriod (allAttendance.filter
        (fun r => (students.map (fun u => u.id)).contains r.student_id)) startDate
        endDate).filter (fun r => r.student_id == s.id)
    = (attendanceInPeriod allAttendance startDate endDate).filter
        (fun r => r.student_id == s.id) := by
  simp only [attendanceInPeriod, List.filter_filter]
  apply List.filter_congr
  intro r _
  by_cases hid : r.student_id = s.id
  · have hcontains : (students.map (fun u => u.id)).contains r.student_id = true := by
      rw [contains_iff_mem, hid]
      exact List.mem_map.mpr ⟨s, hs, rfl⟩
    simp [hid, hcontains]
    exact fun _ _ => ⟨s, hs, rfl⟩
  · have hb : (r.student_id == s.id) = false := by simp [hid]
    simp [hb]

/-- The gender tally only reads the present set through the membership
bits of the roster's ids. -/
theorem genderTally_congr (genderOf : String → Option String) (p q : String → Bool) :
    ∀ (l : List Student) (acc : GenderTally),
      (∀ s ∈ l, p s.id = q s.id) →
      l.foldl (genderTallyStep genderOf p) acc = l.foldl (genderTallyStep genderOf q) acc := by
  intro l
  induction l with
  | nil => intro acc _; rfl
  | cons a rest ih =>
    intro acc h
    simp only [List.foldl_cons]
    have hstep : genderTallyStep genderOf p acc a = genderTallyStep genderOf q acc a := by
      simp only [genderTallyStep, h a (List.mem_cons_self a rest)]
    rw [hstep]
    exact ih _ (fun s hs => h s (List.mem_cons_of_mem a hs))

/-- For a roster member's id, the present bit is unchanged by dropping
the ledger's orphan events. -/
theorem presentIds_contains_kept (students : List Student)
    (allAttendance : List AttendanceRecord) (startDate endDate : String) (s : Student)
    (hs : s ∈ students) :
    (presentStudentIdsInPeriod (allAttendance.filter
        (fun r => (students.map (fun u => u.id)).contains r.student_id)) startDate
        endDate).contains s.id
      = (presentStudentIdsInPeriod allAttendance startDate endDate).contains s.id := by
  have hmemP : ∀ r : AttendanceRecord,
      r ∈ attendanceInPeriod (allAttendance.filter
          (fun x => (students.map (fun u => u.id)).contains x.student_id)) startDate endDate
        ↔ r ∈ attendanceInPeriod allAttendance startDate endDate
            ∧ (students.map (fun u => u.id)).contains r.student_id = true := by
    intro r
    simp only [attendanceInPeriod, List.mem_filter]
    tauto
  by_cases hA : (presentStudentIdsInPeriod allAttendance startDate endDate).contains s.id = true
  · rw [hA, presentIds_contains_iff]
    obtain ⟨r, hr, hst, hid⟩ :=
      (presentIds_contains_iff allAttendance startDate endDate s.id).mp hA
    refine ⟨r, (hmemP r).mpr ⟨hr, ?_⟩, hst, hid⟩
    rw [contains_iff_mem, hid]
    exact List.mem_map.mpr ⟨s, hs, rfl⟩
  · have hA' : (presentStudentIdsInPeriod allAttendance startDate endDate).contains s.id
        = false := by
      cases hx : (presentStudentIdsInPeriod allAttendance startDate endDate).contains s.id
      · rfl
      · exact absurd hx hA
    rw [hA']
    cases hx : (presentStudentIdsInPeriod (allAttendance.filter
        (fun x => (students.map (fun u => u.id)).contains x.student_id)) startDate
        endDate).contains s.id
    · rfl
    · obtain ⟨r, hr, hst, hid⟩ :=
        (presentIds_contains_iff _ startDate endDate s.id).mp hx
      have hr' := ((hmemP r).mp hr).1
      have : (presentStudentIdsInPeriod allAttendance startDate endDate).contains s.id
          = true :=
        (presentIds_contains_iff allAttendance startDate endDate s.id).mpr ⟨r, hr', hst, hid⟩
      exact absurd this hA

/-- C5, amended: aggregation is total on any ledger; orphan events are
excluded from the per-student section — the report has exactly one entry
per roster id and none for other ids — and dropping all orphan events
changes neither the per-student section, nor the four gender counts, nor
`totalStudents`.  However, contrary to the original claim, orphan
present events do affect two report counts: `totalPresentInPeriod`
counts their ids too, and `totalAbsentInPeriod` drops accordingly. -/
theorem claim_C5_orphan_tolerance (students : List Student)
    (allAttendance : List AttendanceRecord) (startDate endDate : String) :
    (∀ k : String,
      (lookupAssoc (calculateReports students allAttendance startDate
          endDate).individualAttendance k).isSome = true
        ↔ k ∈ students.map (fun s => s.id))
    ∧ (calculateReports students (allAttendance.filter
          (fun r => (students.map (fun s => s.id)).contains r.student_id)) startDate
          endDate).individualAttendance
        = (calculateReports students allAttendance startDate endDate).individualAttendance
    ∧ (calculateReports students (allAttendance.filter
          (fun r => (students.map (fun s => s.id)).contains r.student_id)) startDate
          endDate).girlsPresentInPeriod
        = (calculateReports students allAttendance startDate endDate).girlsPresentInPeriod
    ∧ (calculateReports students (allAttendance.filter
          (fun r => (students.map (fun s => s.id)).contains r.student_id)) startDate
          endDate).girlsAbsentInPeriod
        = (calculateReports students allAttendance startDate endDate).girlsAbsentInPeriod
    ∧ (calculateReports students (allAttendance.filter
          (fun r => (students.map (fun s => s.id)).contains r.student_id)) startDate
          endDate).boysPresentInPeriod
        = (calculateReports students allAttendance startDate endDate).boysPresentInPeriod
    ∧ (calculateReports students (allAttendance.filter
          (fun r => (students.map (fun s => s.id)).contains r.student_id)) startDate
          endDate).boysAbsentInPeriod
        = (calculateReports students allAttendance startDate endDate).boysAbsentInPeriod
    ∧ (calculateReports students (allAttendance.filter
          (fun r => (students.map (fun s => s.id)).contains r.student_id)) startDate
          endDate).totalStudents
        = (calculateReports students allAttendance startDate endDate).totalStudents := by
  have htal : students.foldl (genderTallyStep (studentGenderMap students)
        (fun id => (presentStudentIdsInPeriod (allAttendance.filter
          (fun r => (students.map (fun u => u.id)).contains r.student_id)) startDate
          endDate).contains id)) ⟨0, 0, 0, 0⟩
      = students.foldl (genderTallyStep (studentGenderMap students)
        (fun id => (presentStudentIdsInPeriod allAttendance startDate
          endDate).contains id)) ⟨0, 0, 0, 0⟩ :=
    genderTally_congr (studentGenderMap students) _ _ students ⟨0, 0, 0, 0⟩
      (fun s hs => presentIds_contains_kept students allAttendance startDate endDate s hs)
  refine ⟨fun k => calculate_lookup_isSome_iff students allAttendance startDate endDate k,
    ?_, ?_, ?_, ?_, ?_, rfl⟩
  · exact build_congr
      (fun u => mkIndividualEntry (attendanceInPeriod (allAttendance.filter
        (fun r => (students.map (fun s => s.id)).contains r.student_id)) startDate endDate) u)
      (fun u => mkIndividualEntry (attendanceInPeriod allAttendance startDate endDate) u)
      students []
      (fun s hs => mkEntry_filter_eq _ _ s
        (kept_filter_student students allAttendance startDate endDate s hs))
  · exact congrArg GenderTally.girlsPresent htal
  · exact congrArg GenderTally.girlsAbsent htal
  · exact congrArg GenderTally.boysPresent htal
  · exact congrArg GenderTally.boysAbsent htal

/-- C5, counterexample to the claim as stated: an orphan present event
does affect a report count — removing it from the ledger changes
`totalPresentInPeriod` of the report on the single-member roster. -/
theorem claim_C5_orphan_tolerance_cex :
    (calculateReports [stuFemale] [recOrphanPresent] "2024-01-01"
        "2024-01-31").totalPresentInPeriod
      ≠ (calculateReports [stuFemale]
          ([recOrphanPresent].filter
            (fun r => ([stuFemale].map (fun s => s.id)).contains r.student_id))
          "2024-01-01" "2024-01-31").totalPresentInPeriod := by decide
